import Mathlib

/-!
Verification of the Ojoya appraisal frontend against its specification.

The development shallowly embeds the TypeScript sources:
* the API data model and the history reconstruction
  (src/frontend/src/types/api.ts, src/frontend/src/pages/HistoryPage/HistoryPage.tsx),
* the SSE streaming client (src/frontend/src/lib/streaming.ts),
* the streaming-analysis and history hooks
  (src/frontend/src/hooks/useStreamingAnalysis.ts, useAppraisalHistory.ts),
* the image picker validation (ImagePicker.tsx) and the API client (lib/api.ts).

The backend pipeline orchestrator is not part of the frontend sources; where a
claim depends on it, a definition modelled from the spec is used and is marked
as such in its doc comment.
-/

/-! ## Data model (src/frontend/src/types/api.ts) -/

/-- ConfidenceInfo.level values: high | medium | low. -/
inductive ConfidenceLevel
  | high
  | medium
  | low
deriving DecidableEq, Repr

/-- VisionResult.category_type values: processable | unknown | prohibited. -/
inductive CategoryType
  | processable
  | unknown
  | prohibited
deriving DecidableEq, Repr

/-- SearchResult.classification values: mass_product | unique_item. -/
inductive SearchClass
  | mass_product
  | unique_item
deriving DecidableEq, Repr

/-- PriceResult.status values: complete | error. -/
inductive PriceStatus
  | complete
  | error
deriving DecidableEq, Repr

/-- OverallStatus values. -/
inductive OverallStatus
  | completed
  | incomplete
  | error
  | pending_reappraisal
deriving DecidableEq, Repr

/-- TerminationPoint values. -/
inductive TerminationPoint
  | vision_prohibited
  | vision_unknown
  | search_unique
  | price_complete
  | price_error
deriving DecidableEq, Repr

/-- Classification values of an AnalyzeResponse. -/
inductive Classification
  | mass_product
  | unique_item
  | unknown
  | prohibited
deriving DecidableEq, Repr

/-- VisionResult of an AppraisalDocument. -/
structure VisionResult where
  category_type : CategoryType
  item_name : Option String
  visual_features : List String
  confidence : ConfidenceLevel
  reasoning : String
  retry_advice : Option String
deriving DecidableEq, Repr

/-- SearchResult of an AppraisalDocument. -/
structure SearchResult where
  classification : SearchClass
  confidence : ConfidenceLevel
  reasoning : String
  identified_product : Option String
deriving DecidableEq, Repr

/-- PriceResult of an AppraisalDocument.  Prices are JS numbers used as
integers (yen amounts); modelled as Int. -/
structure PriceResult where
  status : PriceStatus
  min_price : Int
  max_price : Int
  currency : String
  confidence : ConfidenceLevel
  display_message : String
  price_factors : Option (List String)
deriving DecidableEq, Repr

/-- AppraisalDocument: the stored record of one appraisal run.  The TS
interface declares `vision` required, but the reconstruction in
HistoryPage.tsx reads it with optional chaining throughout, so it is
modelled as an Option to capture records missing that field at runtime. -/
structure AppraisalDocument where
  id : String
  created_at : String
  updated_at : String
  image_url : Option String
  user_comment : Option String
  vision : Option VisionResult
  search : Option SearchResult
  price : Option PriceResult
  overall_status : OverallStatus
  termination_point : TerminationPoint
deriving DecidableEq, Repr

/-- PriceInfo of an AnalyzeResponse. -/
structure PriceInfo where
  min_price : Int
  max_price : Int
  currency : String
  display_message : String
deriving DecidableEq, Repr

/-- ConfidenceInfo of an AnalyzeResponse. -/
structure ConfidenceInfo where
  level : ConfidenceLevel
  reasoning : String
deriving DecidableEq, Repr

/-- AnalyzeResponse: the display-ready result of one appraisal. -/
structure AnalyzeResponse where
  appraisal_id : Option String
  item_name : Option String
  identified_product : Option String
  visual_features : List String
  classification : Classification
  price : Option PriceInfo
  confidence : Option ConfidenceInfo
  price_factors : Option (List String)
  message : Option String
  recommendation : Option String
  retry_advice : Option String
deriving DecidableEq, Repr

/-! ## History reconstruction (HistoryPage.tsx, toAnalyzeResponse) -/

/-- `toAnalyzeResponse` from HistoryPage.tsx lines 21-59: rebuilds a display
result from a stored AppraisalDocument.  The classification chain is the
source's nested conditional: vision_prohibited, then vision_unknown, then
search classification unique_item, else mass_product. -/
def toAnalyzeResponse (doc : AppraisalDocument) : AnalyzeResponse :=
  let classification :=
    if doc.termination_point = TerminationPoint.vision_prohibited then
      Classification.prohibited
    else if doc.termination_point = TerminationPoint.vision_unknown then
      Classification.unknown
    else if doc.search.map SearchResult.classification
        = some SearchClass.unique_item then
      Classification.unique_item
    else
      Classification.mass_product
  { appraisal_id := some doc.id
    item_name := doc.vision.bind VisionResult.item_name
    identified_product := doc.search.bind SearchResult.identified_product
    visual_features := (doc.vision.map VisionResult.visual_features).getD []
    classification := classification
    price := doc.price.map (fun p =>
      { min_price := p.min_price
        max_price := p.max_price
        currency := p.currency
        display_message := p.display_message })
    confidence := doc.vision.map (fun v =>
      { level := ((doc.price.map PriceResult.confidence).orElse
          (fun _ => doc.search.map SearchResult.confidence)).getD v.confidence
        reasoning := (doc.search.map SearchResult.reasoning).getD v.reasoning })
    price_factors := doc.price.bind PriceResult.price_factors
    message := none
    recommendation := none
    retry_advice := doc.vision.bind VisionResult.retry_advice }

/-- The fixed priority rule of spec section 4.2, stated from the spec's words
and evaluated over a stored record (spec-side definition, kept for
comparison with the source-side `toAnalyzeResponse`): prohibited, else
unknown, else unique_item, else mass_product only if a price StageResult
with status success exists, else unknown.  The record's `termination_point`
is the stored reason code of the terminal stage result. -/
def specClassification (doc : AppraisalDocument) : Classification :=
  if doc.termination_point = TerminationPoint.vision_prohibited then
    Classification.prohibited
  else if doc.termination_point = TerminationPoint.vision_unknown then
    Classification.unknown
  else if doc.termination_point = TerminationPoint.search_unique then
    Classification.unique_item
  else if doc.price.map PriceResult.status = some PriceStatus.complete then
    Classification.mass_product
  else
    Classification.unknown

/-- Modelled from the spec (sections 4.1-4.2): which stored records are
reachable as the persisted outcome of a pipeline run.  The backend
orchestrator that writes records is not among the frontend sources, so
reachability is taken from the spec's stage rules: vision prohibited or
unknown terminates with no later stage, search unique_item terminates
before price, and price runs only after a mass_product search, ending in
status complete or error (a record of a failed price call may also lack
the price entry altogether). -/
def reachableDoc (doc : AppraisalDocument) : Bool :=
  match doc.termination_point with
  | TerminationPoint.vision_prohibited =>
      decide (doc.vision.map VisionResult.category_type
          = some CategoryType.prohibited)
      && decide (doc.search = none) && decide (doc.price = none)
  | TerminationPoint.vision_unknown =>
      decide (doc.vision.map VisionResult.category_type
          = some CategoryType.unknown)
      && decide (doc.search = none) && decide (doc.price = none)
  | TerminationPoint.search_unique =>
      decide (doc.vision.map VisionResult.category_type
          = some CategoryType.processable)
      && decide (doc.search.map SearchResult.classification
          = some SearchClass.unique_item)
      && decide (doc.price = none)
  | TerminationPoint.price_complete =>
      decide (doc.vision.map VisionResult.category_type
          = some CategoryType.processable)
      && decide (doc.search.map SearchResult.classification
          = some SearchClass.mass_product)
      && decide (doc.price.map PriceResult.status = some PriceStatus.complete)
  | TerminationPoint.price_error =>
      decide (doc.vision.map VisionResult.category_type
          = some CategoryType.processable)
      && decide (doc.search.map SearchResult.classification
          = some SearchClass.mass_product)
      && (decide (doc.price = none)
          || decide (doc.price.map PriceResult.status = some PriceStatus.error))

/-- A vision result of a processable item, used in concrete records. -/
def sampleVision : VisionResult :=
  { category_type := CategoryType.processable
    item_name := some "Nintendo Switch"
    visual_features := ["red joy-con"]
    confidence := ConfidenceLevel.high
    reasoning := "console with detachable controllers"
    retry_advice := none }

/-- A search result classifying the item as a mass product. -/
def sampleSearchMass : SearchResult :=
  { classification := SearchClass.mass_product
    confidence := ConfidenceLevel.medium
    reasoning := "widely sold product"
    identified_product := some "Nintendo Switch" }

/-- A price stage result whose lookup failed (status error). -/
def samplePriceError : PriceResult :=
  { status := PriceStatus.error
    min_price := 0
    max_price := 0
    currency := "JPY"
    confidence := ConfidenceLevel.low
    display_message := "price lookup failed"
    price_factors := none }

/-- A reachable stored record of a run that terminated at price with an
error: vision processable, search mass_product, price status error. -/
def priceErrorDoc : AppraisalDocument :=
  { id := "a1"
    created_at := "2026-01-01T00:00:00Z"
    updated_at := "2026-01-01T00:00:00Z"
    image_url := none
    user_comment := none
    vision := some sampleVision
    search := some sampleSearchMass
    price := some samplePriceError
    overall_status := OverallStatus.error
    termination_point := TerminationPoint.price_error }

/-- A stored record of a failed price lookup that kept no price entry at
all (price absent, termination_point price_error). -/
def priceAbsentDoc : AppraisalDocument :=
  { id := "a2"
    created_at := "2026-01-02T00:00:00Z"
    updated_at := "2026-01-02T00:00:00Z"
    image_url := none
    user_comment := none
    vision := some sampleVision
    search := some sampleSearchMass
    price := none
    overall_status := OverallStatus.incomplete
    termination_point := TerminationPoint.price_error }

/-- A successful price stage result. -/
def samplePriceComplete : PriceResult :=
  { status := PriceStatus.complete
    min_price := 12000
    max_price := 18000
    currency := "JPY"
    confidence := ConfidenceLevel.high
    display_message := "typical used range"
    price_factors := some ["condition", "bundled accessories"] }

/-- A reachable stored record of a fully successful run: vision
processable, search mass_product, price complete. -/
def priceCompleteDoc : AppraisalDocument :=
  { id := "a3"
    created_at := "2026-01-03T00:00:00Z"
    updated_at := "2026-01-03T00:00:00Z"
    image_url := none
    user_comment := none
    vision := some sampleVision
    search := some sampleSearchMass
    price := some samplePriceComplete
    overall_status := OverallStatus.completed
    termination_point := TerminationPoint.price_complete }

/-! ## Streaming events (src/frontend/src/types/api.ts) -/

/-- ThinkingEventType values: thinking | node_start | node_complete |
progress | error. -/
inductive ThinkingEventType
  | thinking
  | node_start
  | node_complete
  | progress
  | error
deriving DecidableEq, Repr

/-- NodeType values: vision | search | price. -/
inductive NodeType
  | vision
  | search
  | price
deriving DecidableEq, Repr

/-- ThinkingEvent of the streaming protocol.  The optional untyped `data`
payload (a JSON object) is modelled opaquely as a string. -/
structure ThinkingEvent where
  type : ThinkingEventType
  node : Option NodeType
  message : String
  timestamp : Nat
  data : Option String
deriving DecidableEq, Repr

/-- SSECompleteEvent: the terminal event carrying the final result. -/
structure SSECompleteEvent where
  result : AnalyzeResponse
  timestamp : Nat
deriving DecidableEq, Repr

/-- SSEEvent = ThinkingEvent | SSECompleteEvent. -/
inductive SSEEvent
  | thinkingEv (e : ThinkingEvent)
  | completeEv (e : SSECompleteEvent)
deriving DecidableEq, Repr

/-! ## SSE streaming client (src/frontend/src/lib/streaming.ts) -/

/-- One invocation of a StreamingCallbacks callback, in invocation order. -/
inductive CallbackCall
  | onThinking (e : ThinkingEvent)
  | onComplete (result : AnalyzeResponse)
  | onError (message : String)
deriving DecidableEq, Repr

/-- JSON.parse specialised to SSE events, kept abstract: any decoder mapping
the raw characters after the frame header to a parsed event (or failure). -/
def JsonDecode : Type := List Char → Option SSEEvent

/-- The characters of the frame header the client strips: "data: ". -/
def dataHeader : List Char := ['d', 'a', 't', 'a', ':', ' ']

/-- The characters of the SSE close sentinel "[DONE]". -/
def doneMarker : List Char := ['[', 'D', 'O', 'N', 'E', ']']

/-- `parseSSELine` from streaming.ts lines 79-94: returns null unless the
line starts with "data: "; strips that header; returns null on an empty
rest, on the "[DONE]" sentinel, or when JSON parsing fails. -/
def parseSSELine (d : JsonDecode) (line : List Char) : Option SSEEvent :=
  if line.take 6 = dataHeader then
    let jsonStr := line.drop 6
    if jsonStr = [] ∨ jsonStr = doneMarker then none
    else d jsonStr
  else none

/-- The event dispatch of the read loop (streaming.ts lines 169-175):
complete events go to onComplete, error events to onError, node_complete
events are dropped, every other event goes to onThinking. -/
def dispatchEvent : SSEEvent → List CallbackCall
  | SSEEvent.completeEv e => [CallbackCall.onComplete e.result]
  | SSEEvent.thinkingEv e =>
      if e.type = ThinkingEventType.error then
        [CallbackCall.onError e.message]
      else if e.type ≠ ThinkingEventType.node_complete then
        [CallbackCall.onThinking e]
      else
        []

/-- JS String.trim whitespace test, restricted to the whitespace characters
that occur in SSE framing. -/
def isJsWhitespace (c : Char) : Bool :=
  (c == ' ') || (c == '\n') || (c == '\r') || (c == '\t')

/-- JS String.trim on the characters of a line. -/
def trimChars (l : List Char) : List Char :=
  ((l.dropWhile isJsWhitespace).reverse.dropWhile isJsWhitespace).reverse

/-- The body of the line loop (streaming.ts lines 162-176): trim the line,
skip it when empty, parse it, skip it when parsing fails, otherwise
dispatch the event to the callbacks. -/
def processLine (d : JsonDecode) (line : List Char) : List CallbackCall :=
  let trimmedLine := trimChars line
  if trimmedLine = [] then []
  else
    match parseSSELine d trimmedLine with
    | none => []
    | some ev => dispatchEvent ev

/-- The event a line contributes, if any: `processLine` dispatches exactly
the events this extracts. -/
def parsedLineEvent (d : JsonDecode) (line : List Char) : Option SSEEvent :=
  let trimmedLine := trimChars line
  if trimmedLine = [] then none
  else parseSSELine d trimmedLine

/-- One step of JS String.split on the newline character, consuming one
leading character: maintains (complete fields, last open field). -/
def splitStep (c : Char) (r : List (List Char) × List Char) :
    List (List Char) × List Char :=
  if c = '\n' then ([] :: r.1, r.2)
  else
    match r with
    | ([], buf) => ([], c :: buf)
    | (f :: fs, buf) => ((c :: f) :: fs, buf)

/-- JS `buffer.split('\n')` followed by `lines.pop()`: the first component
is every complete (newline-terminated) field in order, the second is the
trailing field kept as the new buffer. -/
def splitLines : List Char → List (List Char) × List Char
  | [] => ([], [])
  | c :: cs => splitStep c (splitLines cs)

/-- The mutable state of the read loop: the carry-over buffer of the
incomplete last line, and the callback invocations made so far. -/
structure StreamState where
  buffer : List Char
  calls : List CallbackCall
deriving DecidableEq, Repr

/-- Loop state before the first chunk: empty buffer, no calls. -/
def initStreamState : StreamState := { buffer := [], calls := [] }

/-- One iteration of the read loop (streaming.ts lines 152-177): append the
decoded chunk to the buffer, split on newlines, keep the incomplete last
line as the new buffer, and process every complete line in order. -/
def processChunk (d : JsonDecode) (st : StreamState) (chunk : List Char) :
    StreamState :=
  let parts := splitLines (st.buffer ++ chunk)
  { buffer := parts.2
    calls := st.calls ++ parts.1.flatMap (processLine d) }

/-- The read loop over every delivered chunk. -/
def consumeChunks (d : JsonDecode) (chunks : List (List Char)) : StreamState :=
  chunks.foldl (processChunk d) initStreamState

/-- The whole successful body of `fetchStream` after the response arrives
(streaming.ts lines 150-191): run the read loop, then process any
remaining buffered data exactly as a line is processed. -/
def processStream (d : JsonDecode) (chunks : List (List Char)) :
    List CallbackCall :=
  let st := consumeChunks d chunks
  st.calls ++ processLine d st.buffer

/-- How the stream body finishes: normally, by an abort, or by an
infrastructure failure thrown from fetch/read. -/
inductive FetchEnd
  | ok
  | aborted
  | failed (message : String)
deriving DecidableEq, Repr

/-- `createAnalysisStream`'s observable callback sequence (streaming.ts
lines 100-207): on normal completion the full stream is processed
including the final buffer flush; on an AbortError the function returns
with no further callback (lines 193-196); on any other failure onError is
invoked once with the failure (lines 197-200).  `chunks` are the chunks
read before the end. -/
def runStream (d : JsonDecode) (chunks : List (List Char)) :
    FetchEnd → List CallbackCall
  | FetchEnd.ok => processStream d chunks
  | FetchEnd.aborted => (consumeChunks d chunks).calls
  | FetchEnd.failed msg =>
      (consumeChunks d chunks).calls ++ [CallbackCall.onError msg]

/-- All fields of the stream text, the trailing buffer included. -/
def allLines (text : List Char) : List (List Char) :=
  (splitLines text).1 ++ [(splitLines text).2]

/-- The events the client parses out of the delivered chunks, in order. -/
def parsedEvents (d : JsonDecode) (chunks : List (List Char)) :
    List SSEEvent :=
  (allLines chunks.flatten).filterMap (parsedLineEvent d)

/-- Every complete field of the stream text glued behind a carried-over
buffer: how an unfinished line is completed by the next chunk. -/
def glueSplit (pre : List Char) (r : List (List Char) × List Char) :
    List (List Char) × List Char :=
  match r with
  | ([], buf) => ([], pre ++ buf)
  | (f :: fs, buf) => ((pre ++ f) :: fs, buf)

/-- Whether an event terminates the stream for the consumer: a complete
event or an error event. -/
def isTerminalEvent : SSEEvent → Bool
  | SSEEvent.completeEv _ => true
  | SSEEvent.thinkingEv e => e.type == ThinkingEventType.error

/-- Whether a callback invocation is terminal (onComplete or onError). -/
def isTerminalCall : CallbackCall → Bool
  | CallbackCall.onComplete _ => true
  | CallbackCall.onError _ => true
  | CallbackCall.onThinking _ => false

/-- The events delivered through onThinking, in delivery order. -/
def onThinkingCalls (calls : List CallbackCall) : List ThinkingEvent :=
  calls.filterMap (fun c =>
    match c with
    | CallbackCall.onThinking e => some e
    | CallbackCall.onComplete _ => none
    | CallbackCall.onError _ => none)

/-- Which parsed events the dispatch forwards to onThinking: every event
that is neither complete, nor error, nor node_complete. -/
def forwardedThinking : SSEEvent → Option ThinkingEvent
  | SSEEvent.completeEv _ => none
  | SSEEvent.thinkingEv e =>
      if e.type = ThinkingEventType.error then none
      else if e.type ≠ ThinkingEventType.node_complete then some e
      else none

/-! ## Streaming-analysis hook (useStreamingAnalysis.ts) -/

/-- The state held by useStreamingAnalysis: the loading flag, the thinking
events so far, the final result, the error message, and whether a cancel
function is currently registered (cancelRef.current not null). -/
structure AnalysisState where
  isLoading : Bool
  thinkingEvents : List ThinkingEvent
  result : Option AnalyzeResponse
  error : Option String
  cancelActive : Bool
deriving DecidableEq, Repr

/-- `cancel` from useStreamingAnalysis.ts lines 48-54: abort the stream if
one is registered, clear the registration, and clear the loading flag. -/
def cancelAnalysis (st : AnalysisState) : AnalysisState :=
  { st with isLoading := false, cancelActive := false }

/-! ## History hook (useAppraisalHistory.ts, lib/api.ts) -/

/-- The request URL `getAppraisalHistory` builds (lib/api.ts lines 207-217). -/
def appraisalHistoryUrl (limit offset : Nat) : String :=
  "/api/v1/appraisals?limit=" ++ toString limit
    ++ "&offset=" ++ toString offset

/-- The state held by useAppraisalHistory. -/
structure HistoryState where
  appraisals : List AppraisalDocument
  total : Nat
  loading : Bool
  error : Option String
  offset : Nat
deriving DecidableEq, Repr

/-- The server's answer to one history fetch. -/
inductive HistoryResponse
  | success (appraisals : List AppraisalDocument) (total : Nat)
  | failure (message : String)
deriving DecidableEq, Repr

/-- `fetchHistory` from useAppraisalHistory.ts lines 39-73, given the
server's answer: without a user it clears the list and issues no request;
otherwise it requests the current limit and offset (offset 0 on reset),
and on success stores or appends the records, stores the total, and
advances the offset by limit.  The second component is the URL of the
request made, if any. -/
def fetchHistory (limit : Nat) (hasUser : Bool) (st : HistoryState)
    (reset : Bool) (resp : HistoryResponse) :
    HistoryState × Option String :=
  if !hasUser then
    ({ st with appraisals := [], total := 0, loading := false }, none)
  else
    let currentOffset := if reset then 0 else st.offset
    let url := appraisalHistoryUrl limit currentOffset
    match resp with
    | HistoryResponse.success list total =>
        if reset then
          ({ appraisals := list, total := total, loading := false
             error := none, offset := limit }, some url)
        else
          ({ appraisals := st.appraisals ++ list, total := total
             loading := false, error := none, offset := st.offset + limit },
           some url)
    | HistoryResponse.failure m =>
        ({ st with loading := false, error := some m }, some url)

/-- `loadMore` from useAppraisalHistory.ts lines 90-93: returns without a
request while loading or once every record is loaded, else fetches the
next page. -/
def loadMore (limit : Nat) (hasUser : Bool) (st : HistoryState)
    (resp : HistoryResponse) : HistoryState × Option String :=
  if st.loading = true ∨ st.appraisals.length ≥ st.total then (st, none)
  else fetchHistory limit hasUser st false resp

/-- `hasMore` from useAppraisalHistory.ts line 102. -/
def hasMore (st : HistoryState) : Bool :=
  decide (st.appraisals.length < st.total)

/-! ## Image picker validation (ImagePicker.tsx) -/

/-- The accepted MIME types (ImagePicker.tsx line 25). -/
def VALID_TYPES : List String := ["image/jpeg", "image/png", "image/webp"]

/-- The size bound in bytes (ImagePicker.tsx line 26). -/
def MAX_SIZE : Nat := 10 * 1024 * 1024

/-- The two file attributes `processFile` inspects. -/
structure FileData where
  type : String
  size : Nat
deriving DecidableEq, Repr

/-- What the FileReader does with an accepted file. -/
inductive ReadOutcome
  | loaded (base64 : String)
  | readFailed
deriving DecidableEq, Repr

/-- The observable outcome of `processFile`: a validation error message,
an onImageSelect invocation with the data URL, or a read error message. -/
inductive ProcessResult
  | validationError (message : String)
  | imageSelected (base64 : String)
  | readError (message : String)
deriving DecidableEq, Repr

/-- `processFile` from ImagePicker.tsx lines 50-78: reject a file whose
MIME type is not accepted, then a file larger than MAX_SIZE, then read it;
onImageSelect fires only from the reader's onload. -/
def processFile (file : FileData) (read : ReadOutcome) : ProcessResult :=
  if !(VALID_TYPES.contains file.type) then
    ProcessResult.validationError "JPEG、PNG、WebP形式の画像を選択してください"
  else if file.size > MAX_SIZE then
    ProcessResult.validationError "ファイルサイズは10MB以下にしてください"
  else
    match read with
    | ReadOutcome.loaded b => ProcessResult.imageSelected b
    | ReadOutcome.readFailed =>
        ProcessResult.readError "画像の読み込みに失敗しました"

/-! ## API client (lib/api.ts) -/

/-- The error body shape the client reads from a failed response. -/
structure ApiErrorResponse where
  detail : Option String
deriving DecidableEq, Repr

/-- ApiError from types/api.ts lines 202-212: carries the response status
and the detail string. -/
structure ApiError where
  status : Nat
  detail : String
deriving DecidableEq, Repr

/-- JS `s || fallback` on an optional string: the fallback replaces both a
missing and an empty (falsy) string. -/
def jsStringOr (s : Option String) (fallback : String) : String :=
  match s with
  | none => fallback
  | some d => if d = "" then fallback else d

/-- The ApiError constructor body: detail = response.detail || fallback. -/
def mkApiError (status : Nat) (resp : ApiErrorResponse) : ApiError :=
  { status := status, detail := jsStringOr resp.detail "An error occurred" }

/-- One HTTP response as the client reads it: its status, its body parsed
as an error object (when attempted), and its body parsed as the expected
value (when attempted); none where parsing fails. -/
structure HttpResponse (T : Type) where
  status : Nat
  errorJson : Option ApiErrorResponse
  valueJson : Option T
deriving DecidableEq, Repr

/-- fetch Response.ok: status in the 200-299 range. -/
def respOk (status : Nat) : Bool := decide (200 ≤ status ∧ status ≤ 299)

/-- The observable outcome of apiRequest: the parsed value, a thrown
ApiError, or a thrown body-parse failure on an ok response. -/
inductive ApiOutcome (T : Type)
  | success (value : T)
  | apiFailure (e : ApiError)
  | jsonFailure
deriving DecidableEq, Repr

/-- Whether apiRequest performs its single retry (lib/api.ts lines
173-183): first response 401, auth required, and the forced token refresh
yielded a token. -/
def apiRetried (requireAuth : Bool) (firstStatus : Nat)
    (refreshedToken : Option String) : Bool :=
  (firstStatus == 401) && requireAuth && refreshedToken.isSome

/-- The response apiRequest judges: the retried response when the retry
ran, else the first. -/
def apiFinalResponse {T : Type} (requireAuth : Bool)
    (firstResp : HttpResponse T) (refreshedToken : Option String)
    (secondResp : HttpResponse T) : HttpResponse T :=
  if apiRetried requireAuth firstResp.status refreshedToken then secondResp
  else firstResp

/-- `apiRequest` from lib/api.ts lines 146-196, given the responses the
network returns: fetch once; on a 401 with auth required, force-refresh
the token and, if one arrives, fetch once more; throw ApiError(status,
detail) when the final response is not ok (with detail defaulting when
its body fails to parse); return the parsed body when it is ok.  The
second component counts the fetches performed. -/
def apiRequest {T : Type} (requireAuth : Bool) (firstResp : HttpResponse T)
    (refreshedToken : Option String) (secondResp : HttpResponse T) :
    ApiOutcome T × Nat :=
  let final := apiFinalResponse requireAuth firstResp refreshedToken secondResp
  let fetchCount :=
    if apiRetried requireAuth firstResp.status refreshedToken then 2 else 1
  if respOk final.status then
    match final.valueJson with
    | some v => (ApiOutcome.success v, fetchCount)
    | none => (ApiOutcome.jsonFailure, fetchCount)
  else
    (ApiOutcome.apiFailure (mkApiError final.status
      (final.errorJson.getD { detail := some "An error occurred" })),
     fetchCount)

/-! ## Pipeline stage order (modelled from the spec) -/

/-- Modelled from the spec: the stage routing of the backend orchestrator
(sections 4.1-4.2), which is not among the frontend sources.  Given the
three stage backends' outcomes, the stages that run are vision always,
search only when vision found the image processable, and price only when
search additionally classified the item mass_product. -/
structure PipelineStageOutcomes where
  visionCategory : CategoryType
  searchClassification : SearchClass
  priceSucceeds : Bool
deriving DecidableEq, Repr

/-- Modelled from the spec: the ordered list of stages one run executes
(one StageResult each). -/
def runPipelineStages (o : PipelineStageOutcomes) : List NodeType :=
  NodeType.vision ::
    (if o.visionCategory = CategoryType.processable then
      NodeType.search ::
        (if o.searchClassification = SearchClass.mass_product then
          [NodeType.price]
        else [])
    else [])

/-- The stage results a stored record holds, in the fixed stage order. -/
def docStages (doc : AppraisalDocument) : List NodeType :=
  (if doc.vision.isSome then [NodeType.vision] else [])
    ++ (if doc.search.isSome then [NodeType.search] else [])
    ++ (if doc.price.isSome then [NodeType.price] else [])

/-! ## Concrete stream fixtures -/

/-- A concrete thinking event. -/
def sampleThinkingEvent : ThinkingEvent :=
  { type := ThinkingEventType.thinking
    node := some NodeType.vision
    message := "inspecting the image"
    timestamp := 1
    data := none }

/-- A concrete node_complete event. -/
def sampleNodeCompleteEvent : ThinkingEvent :=
  { type := ThinkingEventType.node_complete
    node := some NodeType.vision
    message := "vision done"
    timestamp := 2
    data := none }

/-- A concrete terminal complete event. -/
def sampleCompleteEvent : SSECompleteEvent :=
  { result := toAnalyzeResponse priceCompleteDoc
    timestamp := 3 }

/-- A concrete decoder for three known payloads. -/
def sampleDecode : JsonDecode := fun j =>
  if j = ['e', 'v', '1'] then some (SSEEvent.thinkingEv sampleThinkingEvent)
  else if j = ['e', 'v', '2'] then
    some (SSEEvent.thinkingEv sampleNodeCompleteEvent)
  else if j = ['e', 'v', '3'] then
    some (SSEEvent.completeEv sampleCompleteEvent)
  else none

/-- Chunks of a stream carrying a thinking event, a node_complete event and
one terminal complete event, with a frame boundary split across chunks. -/
def sampleChunks : List (List Char) :=
  [['d', 'a', 't', 'a', ':', ' ', 'e', 'v', '1', '\n', 'd', 'a'],
   ['t', 'a', ':', ' ', 'e', 'v', '2', '\n', '\n'],
   ['d', 'a', 't', 'a', ':', ' ', 'e', 'v', '3', '\n']]


/-- The same stream cut off before its terminal event was framed. -/
def sampleChunksNoTerminal : List (List Char) :=
  [['d', 'a', 't', 'a', ':', ' ', 'e', 'v', '1', '\n', 'd', 'a'],
   ['t', 'a', ':', ' ', 'e', 'v', '2', '\n', '\n']]


/-! # Theorems -/

/-! ## C1, C2: reconstruction versus the spec's priority rule -/

/-- C1 counterexample: the reachable record of a run that terminated with a
failed price lookup is reconstructed as mass_product by the source's
`toAnalyzeResponse`, while the spec section 4.2 priority rule classifies it
unknown (no successful price result exists), so the reconstruction does not
derive the same Classification as the spec rule on every stored record. -/
theorem toAnalyzeResponse_price_error_deviates_from_spec_rule :
    reachableDoc priceErrorDoc = true
    ∧ (toAnalyzeResponse priceErrorDoc).classification
        = Classification.mass_product
    ∧ specClassification priceErrorDoc = Classification.unknown := by
  refine ⟨by decide, by decide, by decide⟩

/-- C1 (amended): on every reachable stored record other than one that
terminated at a failed price lookup, `toAnalyzeResponse` derives exactly
the Classification of the spec section 4.2 priority rule; the round trip
reproduces the original classification on those records. -/
theorem toAnalyzeResponse_matches_spec_rule_off_price_error
    (doc : AppraisalDocument) (h : reachableDoc doc = true)
    (hp : doc.termination_point ≠ TerminationPoint.price_error) :
    (toAnalyzeResponse doc).classification = specClassification doc := by
  unfold reachableDoc at h
  cases htp : doc.termination_point
  case vision_prohibited => simp [toAnalyzeResponse, specClassification, htp]
  case vision_unknown => simp [toAnalyzeResponse, specClassification, htp]
  case search_unique =>
    rw [htp] at h
    simp only [Bool.and_eq_true, decide_eq_true_eq] at h
    obtain ⟨⟨hv, hs⟩, hpr⟩ := h
    simp [toAnalyzeResponse, specClassification, htp, hs]
  case price_complete =>
    rw [htp] at h
    simp only [Bool.and_eq_true, decide_eq_true_eq] at h
    obtain ⟨⟨hv, hs⟩, hpr⟩ := h
    simp [toAnalyzeResponse, specClassification, htp, hs, hpr]
  case price_error => exact absurd htp hp

/-- Witness for the amended C1 theorem at the successful-run record. -/
theorem toAnalyzeResponse_matches_spec_rule_off_price_error_witness :
    reachableDoc priceCompleteDoc = true
    ∧ priceCompleteDoc.termination_point ≠ TerminationPoint.price_error
    ∧ (toAnalyzeResponse priceCompleteDoc).classification
        = specClassification priceCompleteDoc :=
  ⟨by decide, by decide,
    toAnalyzeResponse_matches_spec_rule_off_price_error priceCompleteDoc
      (by decide) (by decide)⟩

/-- C2 counterexample: a stored record whose vision result is processable,
whose search result is not unique_item and which contains no successful
price result (here: the price entry is absent entirely and
termination_point is price_error) is reconstructed with Classification
mass_product, not unknown as the claim states. -/
theorem toAnalyzeResponse_missing_price_not_unknown :
    priceAbsentDoc.vision.map VisionResult.category_type
        = some CategoryType.processable
    ∧ priceAbsentDoc.search.map SearchResult.classification
        ≠ some SearchClass.unique_item
    ∧ priceAbsentDoc.price = none
    ∧ priceAbsentDoc.termination_point = TerminationPoint.price_error
    ∧ (toAnalyzeResponse priceAbsentDoc).classification
        ≠ Classification.unknown
    ∧ (toAnalyzeResponse priceAbsentDoc).classification
        = Classification.mass_product := by
  refine ⟨by decide, by decide, by decide, by decide, by decide, by decide⟩

/-- C2 (amended): reconstruction never raises (it is a total function on
records, defaulting each missing field), but a record whose vision is
processable, whose search is not unique_item and which has no successful
price result reconstructs to mass_product, not unknown; and when the
vision entry itself is missing, the vision-derived fields default to
null/empty rather than failing. -/
theorem toAnalyzeResponse_missing_price_defaults_mass_product
    (doc : AppraisalDocument)
    (h1 : doc.termination_point ≠ TerminationPoint.vision_prohibited)
    (h2 : doc.termination_point ≠ TerminationPoint.vision_unknown)
    (h3 : doc.search.map SearchResult.classification
        ≠ some SearchClass.unique_item)
    (_h4 : doc.price.map PriceResult.status ≠ some PriceStatus.complete) :
    (toAnalyzeResponse doc).classification = Classification.mass_product
    ∧ (doc.vision = none →
        (toAnalyzeResponse doc).item_name = none
        ∧ (toAnalyzeResponse doc).visual_features = []
        ∧ (toAnalyzeResponse doc).confidence = none
        ∧ (toAnalyzeResponse doc).retry_advice = none) := by
  constructor
  · simp [toAnalyzeResponse, h1, h2, h3]
  · intro hv
    simp [toAnalyzeResponse, hv]

/-- Witness for the amended C2 theorem at the price-absent record. -/
theorem toAnalyzeResponse_missing_price_defaults_mass_product_witness :
    priceAbsentDoc.termination_point ≠ TerminationPoint.vision_prohibited
    ∧ priceAbsentDoc.termination_point ≠ TerminationPoint.vision_unknown
    ∧ priceAbsentDoc.search.map SearchResult.classification
        ≠ some SearchClass.unique_item
    ∧ priceAbsentDoc.price.map PriceResult.status
        ≠ some PriceStatus.complete
    ∧ (toAnalyzeResponse priceAbsentDoc).classification
        = Classification.mass_product :=
  ⟨by decide, by decide, by decide, by decide,
    (toAnalyzeResponse_missing_price_defaults_mass_product priceAbsentDoc
      (by decide) (by decide) (by decide) (by decide)).1⟩

/-! ## Stream splitting lemmas -/

/-- Gluing an empty carry-over changes nothing. -/
theorem glueSplit_nil (r : List (List Char) × List Char) :
    glueSplit [] r = r := by
  obtain ⟨r1, r2⟩ := r
  cases r1 <;> simp [glueSplit]

/-- One split step distributes over a glued tail. -/
theorem splitStep_glue (c : Char) (A sb : List (List Char) × List Char) :
    splitStep c (A.1 ++ (glueSplit A.2 sb).1, (glueSplit A.2 sb).2)
    = ((splitStep c A).1 ++ (glueSplit (splitStep c A).2 sb).1,
       (glueSplit (splitStep c A).2 sb).2) := by
  obtain ⟨A1, A2⟩ := A
  obtain ⟨S1, S2⟩ := sb
  by_cases hc : c = '\n'
  · cases A1 <;> cases S1 <;> simp [splitStep, glueSplit, hc]
  · cases A1 <;> cases S1 <;> simp [splitStep, glueSplit, hc]

/-- Splitting a concatenation: the first part's open field is completed by
the second part's fields. -/
theorem splitLines_append (a b : List Char) :
    splitLines (a ++ b)
    = ((splitLines a).1 ++ (glueSplit (splitLines a).2 (splitLines b)).1,
       (glueSplit (splitLines a).2 (splitLines b)).2) := by
  induction a with
  | nil => simp [splitLines, glueSplit_nil]
  | cons c cs ih =>
      have h1 : splitLines ((c :: cs) ++ b) = splitStep c (splitLines (cs ++ b)) := rfl
      have h2 : splitLines (c :: cs) = splitStep c (splitLines cs) := rfl
      rw [h1, ih, h2]
      exact splitStep_glue c (splitLines cs) (splitLines b)

/-- The open field a split keeps contains no newline: splitting it again
yields no complete field. -/
theorem splitLines_snd (l : List Char) :
    splitLines (splitLines l).2 = ([], (splitLines l).2) := by
  induction l with
  | nil => simp [splitLines]
  | cons c cs ih =>
      rcases hr : splitLines cs with ⟨r1, r2⟩
      rw [hr] at ih
      simp only at ih
      by_cases hc : c = '\n'
      · simp [splitLines, hr, splitStep, hc, ih]
      · cases r1 with
        | nil => simp [splitLines, hr, splitStep, hc, ih]
        | cons f fs => simp [splitLines, hr, splitStep, hc, ih]

/-- Concatenating two newline-free texts stays newline-free for the split. -/
theorem splitLines_no_newline_append (x y : List Char)
    (hx : splitLines x = ([], x)) (hy : splitLines y = ([], y)) :
    splitLines (x ++ y) = ([], x ++ y) := by
  rw [splitLines_append, hx, hy]
  simp [glueSplit]

/-- The buffer left after gluing a newline-free carry-over is newline-free. -/
theorem splitLines_glue_snd (pre ch : List Char)
    (hpre : splitLines pre = ([], pre)) :
    splitLines (glueSplit pre (splitLines ch)).2
    = ([], (glueSplit pre (splitLines ch)).2) := by
  rcases hs : splitLines ch with ⟨s1, s2⟩
  have hsnd : splitLines s2 = ([], s2) := by
    have h := splitLines_snd ch
    rw [hs] at h
    exact h
  cases s1 with
  | nil =>
      simp only [glueSplit]
      exact splitLines_no_newline_append pre s2 hpre hsnd
  | cons f fs =>
      simp only [glueSplit]
      exact hsnd

/-- Gluing is associative over a split concatenation. -/
theorem glueSplit_assoc (pre : List Char)
    (s t : List (List Char) × List Char) :
    glueSplit pre (s.1 ++ (glueSplit s.2 t).1, (glueSplit s.2 t).2)
    = ((glueSplit pre s).1 ++ (glueSplit (glueSplit pre s).2 t).1,
       (glueSplit (glueSplit pre s).2 t).2) := by
  obtain ⟨s1, s2⟩ := s
  obtain ⟨t1, t2⟩ := t
  cases s1 <;> cases t1 <;> simp [glueSplit]

/-! ## Read-loop normalization -/

/-- The read loop computes, independently of chunk boundaries, the split of
the whole delivered text: fold invariant over the remaining chunks. -/
theorem consumeChunks_go (d : JsonDecode) (chunks : List (List Char)) :
    ∀ st : StreamState, splitLines st.buffer = ([], st.buffer) →
    chunks.foldl (processChunk d) st
    = { buffer := (glueSplit st.buffer (splitLines chunks.flatten)).2
        calls := st.calls
          ++ (glueSplit st.buffer (splitLines chunks.flatten)).1.flatMap
              (processLine d) } := by
  induction chunks with
  | nil =>
      intro st hb
      simp [splitLines, glueSplit]
  | cons ch chs ih =>
      intro st hb
      have hP : splitLines (st.buffer ++ ch)
          = glueSplit st.buffer (splitLines ch) := by
        rw [splitLines_append, hb]
        simp
      have hb2 := splitLines_glue_snd st.buffer ch hb
      have hstep : processChunk d st ch
          = { buffer := (glueSplit st.buffer (splitLines ch)).2
              calls := st.calls
                ++ (glueSplit st.buffer (splitLines ch)).1.flatMap
                    (processLine d) } := by
        unfold processChunk
        rw [hP]
      rw [List.foldl_cons, hstep, ih _ hb2]
      have hflat : (ch :: chs).flatten = ch ++ chs.flatten := rfl
      rw [hflat, splitLines_append,
        glueSplit_assoc st.buffer (splitLines ch) (splitLines chs.flatten)]
      simp [List.flatMap_append]

/-- The read loop over all chunks, started from the initial state. -/
theorem consumeChunks_eq (d : JsonDecode) (chunks : List (List Char)) :
    consumeChunks d chunks
    = { buffer := (splitLines chunks.flatten).2
        calls := (splitLines chunks.flatten).1.flatMap (processLine d) } := by
  have h := consumeChunks_go d chunks initStreamState (by simp [initStreamState, splitLines])
  rw [consumeChunks, h]
  simp [initStreamState, glueSplit_nil]

/-- Processing a line dispatches exactly the event that line parses to. -/
theorem processLine_eq (d : JsonDecode) (line : List Char) :
    processLine d line
    = match parsedLineEvent d line with
      | none => []
      | some e => dispatchEvent e := by
  unfold processLine parsedLineEvent
  by_cases h : trimChars line = []
  · simp [h]
  · simp [h]

/-- Processing lines in order delivers exactly the parsed events' dispatches,
in order. -/
theorem flatMap_processLine (d : JsonDecode) (lines : List (List Char)) :
    lines.flatMap (processLine d)
    = (lines.filterMap (parsedLineEvent d)).flatMap dispatchEvent := by
  induction lines with
  | nil => simp
  | cons l ls ih =>
      rw [List.flatMap_cons, processLine_eq, ih]
      cases h : parsedLineEvent d l <;> simp [List.filterMap_cons, h]

/-- The whole successful stream run delivers exactly the dispatches of the
events parsed from the delivered text, in emission order, independently of
how the text was chunked. -/
theorem processStream_eq (d : JsonDecode) (chunks : List (List Char)) :
    processStream d chunks = (parsedEvents d chunks).flatMap dispatchEvent := by
  rw [processStream, consumeChunks_eq]
  simp only
  rw [parsedEvents, allLines, List.filterMap_append, List.flatMap_append,
    flatMap_processLine, processLine_eq]
  cases h : parsedLineEvent d (splitLines chunks.flatten).2 <;> simp [h]

/-! ## Terminal-event counting -/

/-- Dispatching one event makes exactly one terminal call for a terminal
event and none otherwise. -/
theorem countP_dispatch (e : SSEEvent) :
    (dispatchEvent e).countP isTerminalCall
    = if isTerminalEvent e then 1 else 0 := by
  cases e with
  | completeEv e =>
      simp [dispatchEvent, isTerminalEvent, isTerminalCall, List.countP_cons]
  | thinkingEv e =>
      cases h : e.type <;>
        simp [dispatchEvent, isTerminalEvent, isTerminalCall, h,
          List.countP_cons]

/-- Terminal calls of a dispatched event list count its terminal events. -/
theorem countP_flatMap_dispatch (events : List SSEEvent) :
    (events.flatMap dispatchEvent).countP isTerminalCall
    = events.countP isTerminalEvent := by
  induction events with
  | nil => simp
  | cons e es ih =>
      rw [List.flatMap_cons, List.countP_append, countP_dispatch, ih,
        List.countP_cons]
      cases h : isTerminalEvent e <;> simp [h, Nat.add_comm]

/-! ## C3: exactly one terminal callback -/

/-- C3: on a stream whose parsed events contain exactly one terminal event
(complete or error), the consumer receives exactly one terminal callback —
never both, never more than once; and on an infrastructure failure after a
prefix with no terminal event, onError is the single terminal callback. -/
theorem stream_exactly_one_terminal_callback (d : JsonDecode)
    (chunks : List (List Char)) :
    ((parsedEvents d chunks).countP isTerminalEvent = 1 →
      (runStream d chunks FetchEnd.ok).countP isTerminalCall = 1)
    ∧ (∀ msg, (parsedEvents d chunks).countP isTerminalEvent = 0 →
      (runStream d chunks (FetchEnd.failed msg)).countP isTerminalCall = 1) := by
  constructor
  · intro h
    show (processStream d chunks).countP isTerminalCall = 1
    rw [processStream_eq, countP_flatMap_dispatch]
    exact h
  · intro msg h
    show ((consumeChunks d chunks).calls
        ++ [CallbackCall.onError msg]).countP isTerminalCall = 1
    rw [List.countP_append, consumeChunks_eq]
    simp only
    rw [flatMap_processLine, countP_flatMap_dispatch]
    have h1 : ((splitLines chunks.flatten).1.filterMap
        (parsedLineEvent d)).countP isTerminalEvent = 0 := by
      rw [parsedEvents, allLines, List.filterMap_append,
        List.countP_append] at h
      omega
    rw [h1]
    simp [isTerminalCall, List.countP_cons]

/-- Witness for C3 on a concrete three-event stream (chunked across frame
boundaries) and on its truncation that loses the terminal event. -/
theorem stream_exactly_one_terminal_callback_witness :
    ((parsedEvents sampleDecode sampleChunks).countP isTerminalEvent = 1
      ∧ (runStream sampleDecode sampleChunks FetchEnd.ok).countP
          isTerminalCall = 1)
    ∧ ((parsedEvents sampleDecode sampleChunksNoTerminal).countP
          isTerminalEvent = 0
      ∧ (runStream sampleDecode sampleChunksNoTerminal
          (FetchEnd.failed "network interrupted")).countP isTerminalCall
            = 1) :=
  ⟨⟨by decide,
    (stream_exactly_one_terminal_callback sampleDecode sampleChunks).1
      (by decide)⟩,
   ⟨by decide,
    (stream_exactly_one_terminal_callback sampleDecode
        sampleChunksNoTerminal).2 "network interrupted" (by decide)⟩⟩

/-! ## C4: onThinking is an order-preserving subsequence -/

/-- Dispatching one event contributes to onThinking exactly the event the
forwarding filter keeps. -/
theorem onThinkingCalls_dispatch (e : SSEEvent) :
    onThinkingCalls (dispatchEvent e) = (forwardedThinking e).toList := by
  cases e with
  | completeEv e => simp [dispatchEvent, forwardedThinking, onThinkingCalls]
  | thinkingEv e =>
      cases h : e.type <;>
        simp [dispatchEvent, forwardedThinking, onThinkingCalls, h]

/-- onThinking across a dispatched event list is the forwarding filter. -/
theorem onThinkingCalls_flatMap (events : List SSEEvent) :
    onThinkingCalls (events.flatMap dispatchEvent)
    = events.filterMap forwardedThinking := by
  induction events with
  | nil => simp [onThinkingCalls]
  | cons e es ih =>
      rw [List.flatMap_cons]
      unfold onThinkingCalls at *
      rw [List.filterMap_append, ih, List.filterMap_cons]
      have h := onThinkingCalls_dispatch e
      unfold onThinkingCalls at h
      rw [h]
      cases hf : forwardedThinking e <;> simp [hf]

/-- Whatever the forwarding filter keeps was a thinking event of the list. -/
theorem filterMap_forwarded_sublist (l : List SSEEvent) :
    List.Sublist ((l.filterMap forwardedThinking).map SSEEvent.thinkingEv)
      l := by
  induction l with
  | nil => simp
  | cons e es ih =>
      cases h : forwardedThinking e with
      | none =>
          rw [List.filterMap_cons, h]
          exact ih.cons e
      | some t =>
          have he : e = SSEEvent.thinkingEv t := by
            cases e with
            | completeEv c => simp [forwardedThinking] at h
            | thinkingEv te =>
                by_cases h1 : te.type = ThinkingEventType.error
                · simp [forwardedThinking, h1] at h
                · by_cases h2 : te.type = ThinkingEventType.node_complete
                  · simp [forwardedThinking, h1, h2] at h
                  · simp [forwardedThinking, h1, h2] at h
                    rw [h]
          rw [List.filterMap_cons, h, List.map_cons, he]
          exact ih.cons₂ _

/-- The parse condition of one SSE line. -/
theorem parseSSELine_iff (d : JsonDecode) (line : List Char) (e : SSEEvent) :
    parseSSELine d line = some e
    ↔ (line.take 6 = dataHeader ∧ line.drop 6 ≠ []
        ∧ line.drop 6 ≠ doneMarker ∧ d (line.drop 6) = some e) := by
  unfold parseSSELine
  by_cases h1 : line.take 6 = dataHeader
  · by_cases h2 : line.drop 6 = [] ∨ line.drop 6 = doneMarker
    · simp only [h1, if_pos, h2, if_true]
      constructor
      · intro hc
        exact absurd hc (by simp)
      · intro hc
        rcases h2 with h2 | h2
        · exact absurd h2 hc.2.1
        · exact absurd h2 hc.2.2.1
    · push_neg at h2
      simp [h1, h2.1, h2.2]
  · simp [h1]

/-- C4: the events delivered through onThinking are exactly the parsed
events kept by the dispatch filter, hence an order-preserving subsequence
of the parsed data events, with none reordered, duplicated or dropped from
the kept ones; and a line parses to an event exactly when it starts with
the "data: " header followed by decodable, non-empty content other than
the "[DONE]" sentinel. -/
theorem onThinking_order_preserving_subsequence (d : JsonDecode)
    (chunks : List (List Char)) :
    onThinkingCalls (processStream d chunks)
      = (parsedEvents d chunks).filterMap forwardedThinking
    ∧ List.Sublist
        ((onThinkingCalls (processStream d chunks)).map SSEEvent.thinkingEv)
        (parsedEvents d chunks)
    ∧ ∀ line e, parseSSELine d line = some e
        ↔ (line.take 6 = dataHeader ∧ line.drop 6 ≠ []
            ∧ line.drop 6 ≠ doneMarker ∧ d (line.drop 6) = some e) := by
  have h1 : onThinkingCalls (processStream d chunks)
      = (parsedEvents d chunks).filterMap forwardedThinking := by
    rw [processStream_eq, onThinkingCalls_flatMap]
  refine ⟨h1, ?_, fun line e => parseSSELine_iff d line e⟩
  rw [h1]
  exact filterMap_forwarded_sublist (parsedEvents d chunks)

/-! ## C5: cancellation makes no callback -/

/-- C5: after an abort the stream function returns having invoked exactly
the callbacks of the events already fully parsed before the abort — the
cancellation itself yields no onError and no onComplete (terminal calls
count only already-delivered terminal events, and nothing is appended
beyond them); and the hook's cancel clears the loading state and the
registered cancel function. -/
theorem abort_no_error_callback (d : JsonDecode)
    (chunks : List (List Char)) (st : AnalysisState) :
    runStream d chunks FetchEnd.aborted
      = ((splitLines chunks.flatten).1.filterMap
          (parsedLineEvent d)).flatMap dispatchEvent
    ∧ (runStream d chunks FetchEnd.aborted).countP isTerminalCall
      = ((splitLines chunks.flatten).1.filterMap
          (parsedLineEvent d)).countP isTerminalEvent
    ∧ (cancelAnalysis st).isLoading = false
    ∧ (cancelAnalysis st).cancelActive = false := by
  have h1 : runStream d chunks FetchEnd.aborted
      = ((splitLines chunks.flatten).1.filterMap
          (parsedLineEvent d)).flatMap dispatchEvent := by
    show (consumeChunks d chunks).calls = _
    rw [consumeChunks_eq]
    exact flatMap_processLine d (splitLines chunks.flatten).1
  refine ⟨h1, ?_, rfl, rfl⟩
  rw [h1, countP_flatMap_dispatch]

/-! ## C8: node_complete events are silently discarded -/

/-- A forwarded thinking event is never a node_complete event. -/
theorem forwardedThinking_not_node_complete (ev : SSEEvent)
    (t : ThinkingEvent) :
    forwardedThinking ev = some t →
    t.type ≠ ThinkingEventType.node_complete := by
  intro h
  cases ev with
  | completeEv c => simp [forwardedThinking] at h
  | thinkingEv te =>
      by_cases h1 : te.type = ThinkingEventType.error
      · simp [forwardedThinking, h1] at h
      · by_cases h2 : te.type = ThinkingEventType.node_complete
        · simp [forwardedThinking, h1, h2] at h
        · simp [forwardedThinking, h1, h2] at h
          rw [← h]
          exact h2

/-- C8: a parsed node_complete event is delivered to none of the callbacks
(its dispatch is empty), while thinking, node_start and progress events go
to onThinking, error events to onError, and complete events to onComplete;
hence no event delivered through onThinking during a whole stream run has
type node_complete. -/
theorem node_complete_events_discarded (d : JsonDecode)
    (chunks : List (List Char)) (n : Option NodeType) (msg : String)
    (ts : Nat) (dt : Option String) (r : AnalyzeResponse) :
    dispatchEvent (SSEEvent.thinkingEv
      ⟨ThinkingEventType.node_complete, n, msg, ts, dt⟩) = []
    ∧ dispatchEvent (SSEEvent.thinkingEv
        ⟨ThinkingEventType.thinking, n, msg, ts, dt⟩)
      = [CallbackCall.onThinking
          ⟨ThinkingEventType.thinking, n, msg, ts, dt⟩]
    ∧ dispatchEvent (SSEEvent.thinkingEv
        ⟨ThinkingEventType.node_start, n, msg, ts, dt⟩)
      = [CallbackCall.onThinking
          ⟨ThinkingEventType.node_start, n, msg, ts, dt⟩]
    ∧ dispatchEvent (SSEEvent.thinkingEv
        ⟨ThinkingEventType.progress, n, msg, ts, dt⟩)
      = [CallbackCall.onThinking
          ⟨ThinkingEventType.progress, n, msg, ts, dt⟩]
    ∧ dispatchEvent (SSEEvent.thinkingEv
        ⟨ThinkingEventType.error, n, msg, ts, dt⟩)
      = [CallbackCall.onError msg]
    ∧ dispatchEvent (SSEEvent.completeEv ⟨r, ts⟩)
      = [CallbackCall.onComplete r]
    ∧ (onThinkingCalls (processStream d chunks)).all
        (fun ev => ev.type != ThinkingEventType.node_complete) = true := by
  refine ⟨by simp [dispatchEvent], by simp [dispatchEvent],
    by simp [dispatchEvent], by simp [dispatchEvent],
    by simp [dispatchEvent], by simp [dispatchEvent], ?_⟩
  rw [processStream_eq, onThinkingCalls_flatMap, List.all_eq_true]
  intro t ht
  rw [List.mem_filterMap] at ht
  obtain ⟨ev, -, hev⟩ := ht
  have := forwardedThinking_not_node_complete ev t hev
  simpa using this

/-! ## C6: stage sequences are gap-free prefixes -/

/-- A mapped option hitting some value was itself present. -/
theorem isSome_of_map_eq_some {α β : Type} (f : α → β) (x : Option α)
    (y : β) (h : x.map f = some y) : x.isSome = true := by
  cases x
  · simp at h
  · rfl

/-- C6: a pipeline run executes a nonempty gap-free initial segment of the
fixed order vision, search, price (length 1 to 3); and every reachable
stored record holds a vision result, holds a search result only when
vision continued, holds a price result only when a search result exists,
and its stage results form a nonempty initial segment of the fixed
order. -/
theorem stage_sequence_prefix_invariant (o : PipelineStageOutcomes)
    (doc : AppraisalDocument) (h : reachableDoc doc = true) :
    (runPipelineStages o ≠ []
      ∧ (∃ t, runPipelineStages o ++ t
          = [NodeType.vision, NodeType.search, NodeType.price])
      ∧ 1 ≤ (runPipelineStages o).length
      ∧ (runPipelineStages o).length ≤ 3)
    ∧ (doc.vision.isSome = true
      ∧ (doc.search.isSome = true →
          doc.vision.map VisionResult.category_type
            = some CategoryType.processable)
      ∧ (doc.price.isSome = true → doc.search.isSome = true)
      ∧ (∃ t, docStages doc ++ t
          = [NodeType.vision, NodeType.search, NodeType.price])
      ∧ 1 ≤ (docStages doc).length
      ∧ (docStages doc).length ≤ 3) := by
  constructor
  · obtain ⟨vc, sc, ps⟩ := o
    cases vc <;> cases sc <;>
      exact ⟨by simp [runPipelineStages], by simp [runPipelineStages],
        by simp [runPipelineStages], by simp [runPipelineStages]⟩
  · have hfacts : doc.vision.isSome = true
        ∧ (doc.search.isSome = true →
            doc.vision.map VisionResult.category_type
              = some CategoryType.processable)
        ∧ (doc.price.isSome = true → doc.search.isSome = true) := by
      unfold reachableDoc at h
      cases htp : doc.termination_point <;> rw [htp] at h <;>
        simp only [Bool.and_eq_true, Bool.or_eq_true,
          decide_eq_true_eq] at h
      · refine ⟨isSome_of_map_eq_some _ _ _ h.1.1, ?_, ?_⟩
        · rw [h.1.2]; simp
        · rw [h.2]; simp
      · refine ⟨isSome_of_map_eq_some _ _ _ h.1.1, ?_, ?_⟩
        · rw [h.1.2]; simp
        · rw [h.2]; simp
      · exact ⟨isSome_of_map_eq_some _ _ _ h.1.1, fun _ => h.1.1,
          fun _ => isSome_of_map_eq_some _ _ _ h.1.2⟩
      · exact ⟨isSome_of_map_eq_some _ _ _ h.1.1, fun _ => h.1.1,
          fun _ => isSome_of_map_eq_some _ _ _ h.1.2⟩
      · exact ⟨isSome_of_map_eq_some _ _ _ h.1.1, fun _ => h.1.1,
          fun _ => isSome_of_map_eq_some _ _ _ h.1.2⟩
    obtain ⟨hv, hsi, hpi⟩ := hfacts
    have hcases : docStages doc = [NodeType.vision]
        ∨ docStages doc = [NodeType.vision, NodeType.search]
        ∨ docStages doc
            = [NodeType.vision, NodeType.search, NodeType.price] := by
      cases hs : doc.search.isSome
      · cases hp2 : doc.price.isSome
        · left; simp [docStages, hv, hs, hp2]
        · exact absurd (hpi hp2) (by simp [hs])
      · cases hp2 : doc.price.isSome
        · right; left; simp [docStages, hv, hs, hp2]
        · right; right; simp [docStages, hv, hs, hp2]
    refine ⟨hv, hsi, hpi, ?_, ?_, ?_⟩
    · rcases hcases with hc | hc | hc <;> rw [hc]
      · exact ⟨[NodeType.search, NodeType.price], rfl⟩
      · exact ⟨[NodeType.price], rfl⟩
      · exact ⟨[], rfl⟩
    · rcases hcases with hc | hc | hc <;> simp [hc]
    · rcases hcases with hc | hc | hc <;> simp [hc]

/-- Witness for C6 at a concrete full run and the concrete reachable
price-error record. -/
theorem stage_sequence_prefix_invariant_witness :
    reachableDoc priceErrorDoc = true
    ∧ runPipelineStages
        ⟨CategoryType.processable, SearchClass.mass_product, true⟩ ≠ []
    ∧ (docStages priceErrorDoc).length ≤ 3 :=
  ⟨by decide,
   (stage_sequence_prefix_invariant
      ⟨CategoryType.processable, SearchClass.mass_product, true⟩
      priceErrorDoc (by decide)).1.1,
   (stage_sequence_prefix_invariant
      ⟨CategoryType.processable, SearchClass.mass_product, true⟩
      priceErrorDoc (by decide)).2.2.2.2.2.2⟩

/-! ## C7: history pagination -/

/-- C7: every history fetch with a signed-in user requests the endpoint
with the current limit and offset (offset 0 on reset); a successful
loadMore while idle and not exhausted appends the returned records after
the existing ones, advances the offset by exactly limit, and requests the
page at the pre-advance offset; loadMore issues no request once the loaded
records reach the total; and hasMore holds exactly while fewer than total
records are loaded. -/
theorem history_pagination (limit : Nat) (st : HistoryState)
    (resp : HistoryResponse) (list : List AppraisalDocument)
    (total : Nat) (reset : Bool) :
    (fetchHistory limit true st reset resp).2
      = some (appraisalHistoryUrl limit (if reset then 0 else st.offset))
    ∧ (st.loading = false → st.appraisals.length < st.total →
        loadMore limit true st (HistoryResponse.success list total)
        = ({ appraisals := st.appraisals ++ list, total := total
             loading := false, error := none, offset := st.offset + limit },
           some (appraisalHistoryUrl limit st.offset)))
    ∧ (st.appraisals.length ≥ st.total →
        ∀ hasUser, loadMore limit hasUser st resp = (st, none))
    ∧ (hasMore st = true ↔ st.appraisals.length < st.total) := by
  refine ⟨?_, ?_, ?_, ?_⟩
  · cases resp <;> cases reset <;> simp [fetchHistory]
  · intro h1 h2
    have hcond : ¬ (st.loading = true ∨ st.appraisals.length ≥ st.total) := by
      rintro (hc | hc)
      · rw [h1] at hc; exact Bool.false_ne_true hc
      · omega
    rw [loadMore, if_neg hcond]
    simp [fetchHistory]
  · intro h hasUser
    rw [loadMore, if_pos (Or.inr h)]
  · simp [hasMore]

/-- Witness for C7 at a concrete partially-loaded history state. -/
theorem history_pagination_witness :
    (({ appraisals := [priceCompleteDoc], total := 3, loading := false
        error := none, offset := 20 } : HistoryState).loading = false
      ∧ ([priceCompleteDoc] : List AppraisalDocument).length < 3)
    ∧ loadMore 20 true
        { appraisals := [priceCompleteDoc], total := 3, loading := false
          error := none, offset := 20 }
        (HistoryResponse.success [priceErrorDoc] 3)
      = ({ appraisals := [priceCompleteDoc] ++ [priceErrorDoc], total := 3
           loading := false, error := none, offset := 20 + 20 },
         some (appraisalHistoryUrl 20 20)) :=
  ⟨⟨rfl, by decide⟩,
   (history_pagination 20
      { appraisals := [priceCompleteDoc], total := 3, loading := false
        error := none, offset := 20 }
      (HistoryResponse.success [priceErrorDoc] 3) [priceErrorDoc] 3
      false).2.1 rfl (by decide)⟩

/-! ## C9: image validation gates onImageSelect -/

/-- C9: onImageSelect fires only for a file whose MIME type is accepted and
whose size is at most 10485760 bytes; a file failing either check yields a
validation error message and never reaches onImageSelect. -/
theorem image_picker_validation (file : FileData) (read : ReadOutcome) :
    (∀ b, processFile file read = ProcessResult.imageSelected b →
      VALID_TYPES.contains file.type = true ∧ file.size ≤ 10485760)
    ∧ (VALID_TYPES.contains file.type = false ∨ file.size > 10485760 →
        ∃ m, processFile file read = ProcessResult.validationError m)
    ∧ MAX_SIZE = 10485760 := by
  have hmax : MAX_SIZE = 10485760 := by norm_num [MAX_SIZE]
  refine ⟨?_, ?_, hmax⟩
  · intro b h
    rw [processFile.eq_def] at h
    by_cases hT : VALID_TYPES.contains file.type = true
    · by_cases hS : file.size > MAX_SIZE
      · rw [if_neg (by rw [hT]; simp), if_pos hS] at h
        exact absurd h (by simp)
      · exact ⟨hT, by omega⟩
    · have hT2 : VALID_TYPES.contains file.type = false := by simpa using hT
      rw [if_pos (by rw [hT2]; simp)] at h
      exact absurd h (by simp)
  · intro h
    by_cases hT : VALID_TYPES.contains file.type = true
    · rcases h with h | h
      · rw [hT] at h
        exact absurd h (by simp)
      · refine ⟨"ファイルサイズは10MB以下にしてください", ?_⟩
        rw [processFile.eq_def, if_neg (by rw [hT]; simp), if_pos (by omega)]
    · have hT2 : VALID_TYPES.contains file.type = false := by simpa using hT
      exact ⟨"JPEG、PNG、WebP形式の画像を選択してください",
        by rw [processFile.eq_def, if_pos (by rw [hT2]; simp)]⟩

/-- Witness for C9 at a rejected GIF and an accepted small JPEG. -/
theorem image_picker_validation_witness :
    (VALID_TYPES.contains "image/gif" = false
      ∧ ∃ m, processFile { type := "image/gif", size := 5 }
          (ReadOutcome.loaded "dataurl")
        = ProcessResult.validationError m)
    ∧ (processFile { type := "image/jpeg", size := 5 }
          (ReadOutcome.loaded "dataurl")
        = ProcessResult.imageSelected "dataurl"
      ∧ VALID_TYPES.contains "image/jpeg" = true ∧ (5 : Nat) ≤ 10485760) :=
  ⟨⟨by decide,
    (image_picker_validation { type := "image/gif", size := 5 }
        (ReadOutcome.loaded "dataurl")).2.1 (Or.inl (by decide))⟩,
   ⟨by decide,
    (image_picker_validation { type := "image/jpeg", size := 5 }
        (ReadOutcome.loaded "dataurl")).1 "dataurl" (by decide)⟩⟩

/-! ## C10: auth retry and error propagation -/

/-- C10: apiRequest performs one fetch, or exactly two when the first
response is a 401 on an auth-required request and the forced token refresh
yields a token; when the final response is not ok it throws the ApiError
built from that response's status and detail; and it returns a parsed
value exactly for an ok final response whose body parses. -/
theorem api_request_retry_and_error {T : Type} (requireAuth : Bool)
    (firstResp : HttpResponse T) (refreshedToken : Option String)
    (secondResp : HttpResponse T) :
    ((apiRequest requireAuth firstResp refreshedToken secondResp).2 = 1
      ∨ (apiRequest requireAuth firstResp refreshedToken secondResp).2 = 2)
    ∧ ((apiRequest requireAuth firstResp refreshedToken secondResp).2 = 2 →
        firstResp.status = 401 ∧ requireAuth = true
          ∧ refreshedToken.isSome = true)
    ∧ (respOk (apiFinalResponse requireAuth firstResp refreshedToken
          secondResp).status = false →
        (apiRequest requireAuth firstResp refreshedToken secondResp).1
        = ApiOutcome.apiFailure (mkApiError
            (apiFinalResponse requireAuth firstResp refreshedToken
              secondResp).status
            ((apiFinalResponse requireAuth firstResp refreshedToken
              secondResp).errorJson.getD
              { detail := some "An error occurred" })))
    ∧ (∀ v, (apiRequest requireAuth firstResp refreshedToken secondResp).1
          = ApiOutcome.success v →
        respOk (apiFinalResponse requireAuth firstResp refreshedToken
          secondResp).status = true
        ∧ (apiFinalResponse requireAuth firstResp refreshedToken
            secondResp).valueJson = some v) := by
  refine ⟨?_, ?_, ?_, ?_⟩
  · rw [apiRequest]
    by_cases hr : apiRetried requireAuth firstResp.status refreshedToken = true
    · cases hok : respOk (apiFinalResponse requireAuth firstResp
          refreshedToken secondResp).status <;>
        simp [hr, hok] <;>
        cases (apiFinalResponse requireAuth firstResp refreshedToken
          secondResp).valueJson <;> simp
    · have hr2 : apiRetried requireAuth firstResp.status refreshedToken
          = false := by simpa using hr
      cases hok : respOk (apiFinalResponse requireAuth firstResp
          refreshedToken secondResp).status <;>
        simp [hr2, hok] <;>
        cases (apiFinalResponse requireAuth firstResp refreshedToken
          secondResp).valueJson <;> simp
  · intro h2
    rw [apiRequest] at h2
    by_cases hr : apiRetried requireAuth firstResp.status refreshedToken = true
    · have := hr
      rw [apiRetried] at this
      simp only [Bool.and_eq_true, beq_iff_eq] at this
      exact ⟨this.1.1, this.1.2, this.2⟩
    · have hr2 : apiRetried requireAuth firstResp.status refreshedToken
          = false := by simpa using hr
      cases hok : respOk (apiFinalResponse requireAuth firstResp
          refreshedToken secondResp).status <;>
        rw [hok] at h2 <;> simp [hr2] at h2 <;>
        cases hv : (apiFinalResponse requireAuth firstResp refreshedToken
          secondResp).valueJson <;> rw [hv] at h2 <;> simp at h2
  · intro hok
    rw [apiRequest, hok]
    simp
  · intro v hv
    rw [apiRequest] at hv
    cases hok : respOk (apiFinalResponse requireAuth firstResp
        refreshedToken secondResp).status
    · rw [hok] at hv
      simp at hv
    · rw [hok] at hv
      refine ⟨rfl, ?_⟩
      cases hjson : (apiFinalResponse requireAuth firstResp refreshedToken
          secondResp).valueJson <;> rw [hjson] at hv <;> simp at hv
      rw [hv]

/-- Witness for C10: a 401 first response with a successful forced refresh
retries once, and the 404 final response throws the ApiError carrying its
status and detail. -/
theorem api_request_retry_and_error_witness :
    ((apiRequest true
        ({ status := 401, errorJson := none, valueJson := none }
          : HttpResponse Nat)
        (some "tok")
        { status := 404, errorJson := some { detail := some "not found" }
          valueJson := none }).2 = 2
      ∧ ({ status := 401, errorJson := none, valueJson := none }
          : HttpResponse Nat).status = 401 ∧ true = true
      ∧ (some "tok").isSome = true)
    ∧ (respOk (apiFinalResponse true
        ({ status := 401, errorJson := none, valueJson := none }
          : HttpResponse Nat)
        (some "tok")
        { status := 404, errorJson := some { detail := some "not found" }
          valueJson := none }).status = false
      ∧ (apiRequest true
          ({ status := 401, errorJson := none, valueJson := none }
            : HttpResponse Nat)
          (some "tok")
          { status := 404, errorJson := some { detail := some "not found" }
            valueJson := none }).1
        = ApiOutcome.apiFailure (mkApiError
            (apiFinalResponse true
              ({ status := 401, errorJson := none, valueJson := none }
                : HttpResponse Nat)
              (some "tok")
              { status := 404
                errorJson := some { detail := some "not found" }
                valueJson := none }).status
            ((apiFinalResponse true
              ({ status := 401, errorJson := none, valueJson := none }
                : HttpResponse Nat)
              (some "tok")
              { status := 404
                errorJson := some { detail := some "not found" }
                valueJson := none }).errorJson.getD
              { detail := some "An error occurred" }))) :=
  ⟨⟨by decide,
    (api_request_retry_and_error true
        { status := 401, errorJson := none, valueJson := none }
        (some "tok")
        { status := 404, errorJson := some { detail := some "not found" }
          valueJson := none }).2.1 (by decide)⟩,
   ⟨by decide,
    (api_request_retry_and_error true
        { status := 401, errorJson := none, valueJson := none }
        (some "tok")
        { status := 404, errorJson := some { detail := some "not found" }
          valueJson := none }).2.2.1 (by decide)⟩⟩
